import Mathlib

/-!
Shallow embedding of the hydrogen-orbital point-cloud visualizer
(`src/Code/Multiple Orbitals.cpp` and `src/unnamed/part_000`).

Floating-point arithmetic is modelled over the real numbers; the float
literals of the source (including its `PI` constant `3.14159265359f`) are
kept as the exact rational constants the source writes.  The rejection
sampler consumes randomness from a `std::mt19937`; it is modelled as an
explicit stream of candidate draws (`r`, `theta`, `phi`, acceptance
threshold `u`), each constrained to the interval the corresponding
`uniform_real_distribution` draws from, together with a fuel counter:
`none` means the loop has not finished within `fuel` iterations.
-/

open scoped Classical

noncomputable section

namespace HydrogenViz

/-- `constexpr float PI = 3.14159265359f;` (both files). -/
def PI : ℝ := 3.14159265359

/-- `constexpr float BOHR_RADIUS = 1.0f;` (both files). -/
def BOHR_RADIUS : ℝ := 1

/-- `constexpr int NUM_POINTS = 10000;` (both files). -/
def NUM_POINTS : ℕ := 10000

/-- `constexpr float VIBRATION_FREQ = 0.1f;` (both files). -/
def VIBRATION_FREQ : ℝ := 0.1

/-- The regeneration throttle `0.5f` used in both main loops. -/
def REGEN_INTERVAL : ℝ := 0.5

/-- The `Orbital` struct (both files): quantum numbers, display scale,
name and RGB color. -/
structure Orbital where
  n : ℤ
  l : ℤ
  m : ℤ
  scale : ℝ
  name : String
  color : ℝ × ℝ × ℝ

/-- `real_spherical_harmonic` from `Multiple Orbitals.cpp` (lines 37-54):
sequential `if` dispatch on `(orbital.l, orbital.m)`. -/
def real_spherical_harmonic (orbital : Orbital) (theta phi : ℝ) : ℝ :=
  if orbital.l = 0 ∧ orbital.m = 0 then
    0.5 * Real.sqrt (1 / PI)
  else if orbital.l = 1 ∧ orbital.m = 0 then
    Real.sqrt (3 / (4 * PI)) * Real.cos theta
  else if orbital.l = 1 ∧ orbital.m = 1 then
    -Real.sqrt (3 / (4 * PI)) * Real.sin theta * Real.cos phi
  else if orbital.l = 1 ∧ orbital.m = -1 then
    -Real.sqrt (3 / (4 * PI)) * Real.sin theta * Real.sin phi
  else 0

/-- `radial_function` (textually identical in both files, lines 56-66 /
53-63): dispatch on `n`, with `a0 = BOHR_RADIUS` and `std::pow(a0, 1.5f)`
modelled as a real power. -/
def radial_function (n : ℤ) (r : ℝ) : ℝ :=
  let a0 := BOHR_RADIUS
  if n = 1 then
    2 * Real.exp (-r / a0) / a0 ^ (1.5 : ℝ)
  else if n = 2 then
    (1 / (2 * Real.sqrt 2)) * (1 - r / (2 * a0)) * Real.exp (-r / (2 * a0)) / a0 ^ (1.5 : ℝ)
  else 0

/-- `probability_density` from `Multiple Orbitals.cpp` (lines 68-74):
`psi = R * Y`, returns `psi * psi * (1 + 0.1 * sin(VIBRATION_FREQ * time))`. -/
def probability_density (orbital : Orbital) (r theta phi time : ℝ) : ℝ :=
  let R := radial_function orbital.n r
  let Y := real_spherical_harmonic orbital theta phi
  let psi := R * Y
  let vibration := 1 + 0.1 * Real.sin (VIBRATION_FREQ * time)
  psi * psi * vibration

namespace Part000

/-- `spherical_harmonic` from `part_000` (lines 37-51): same dispatch, but
the `(1, ±1)` cases use `sqrt(3/(8π))` and the `(1, -1)` case is positive. -/
def spherical_harmonic (l m : ℤ) (theta phi : ℝ) : ℝ :=
  if l = 0 ∧ m = 0 then
    0.5 * Real.sqrt (1 / PI)
  else if l = 1 ∧ m = 0 then
    Real.sqrt (3 / (4 * PI)) * Real.cos theta
  else if l = 1 ∧ m = 1 then
    -Real.sqrt (3 / (8 * PI)) * Real.sin theta * Real.cos phi
  else if l = 1 ∧ m = -1 then
    Real.sqrt (3 / (8 * PI)) * Real.sin theta * Real.sin phi
  else 0

/-- `probability_density` from `part_000` (lines 65-71): same combination,
taking the quantum numbers directly. -/
def probability_density (n l m : ℤ) (r theta phi time : ℝ) : ℝ :=
  let R := radial_function n r
  let Y := spherical_harmonic l m theta phi
  let psi := R * Y
  let vibration := 1 + 0.1 * Real.sin (VIBRATION_FREQ * time)
  psi * psi * vibration

end Part000

/-- One loop iteration of `generate_orbital_points` consumes one candidate:
a radius, two angles and an acceptance threshold, drawn by
`r_dist`, `theta_dist`, `phi_dist` and `prob_dist` respectively. -/
structure Draw where
  r : ℝ
  theta : ℝ
  phi : ℝ
  u : ℝ

/-- Membership of `(r, theta, phi)` in the sampling domain, for a given
upper bound `rmax` of the radial draw (`8 * BOHR_RADIUS` in
`Multiple Orbitals.cpp`, `5 * BOHR_RADIUS` in `part_000`). -/
def inDomain (rmax r theta phi : ℝ) : Prop :=
  0 ≤ r ∧ r ≤ rmax ∧ 0 ≤ theta ∧ theta ≤ PI ∧ 0 ≤ phi ∧ phi ≤ 2 * PI

/-- A draw the distributions of `generate_orbital_points` can produce:
coordinates in the domain and threshold in `[0, 1]`. -/
def validDraw (rmax : ℝ) (d : Draw) : Prop :=
  inDomain rmax d.r d.theta d.phi ∧ 0 ≤ d.u ∧ d.u ≤ 1

/-- `float max_prob = 1.0f;` (both files). -/
def max_prob : ℝ := 1

/-- The spherical-to-Cartesian conversion performed on acceptance
(lines 98-100 / 95-97). -/
def toCartesian (d : Draw) : ℝ × ℝ × ℝ :=
  (d.r * Real.sin d.theta * Real.cos d.phi,
   d.r * Real.sin d.theta * Real.sin d.phi,
   d.r * Real.cos d.theta)

/-- The `while (points.size() < NUM_POINTS)` acceptance loop shared by the
two files' `generate_orbital_points`, abstracted over the density being
sampled.  `stream i` is the `i`-th tuple of random draws; `fuel` bounds how
many iterations we observe: `none` means the loop is still running after
`fuel` iterations. -/
def sampleLoop (dens : ℝ → ℝ → ℝ → ℝ) (stream : ℕ → Draw) :
    ℕ → ℕ → List (ℝ × ℝ × ℝ) → Option (List (ℝ × ℝ × ℝ))
  | 0, _, points => if NUM_POINTS ≤ points.length then some points else none
  | fuel + 1, i, points =>
    if NUM_POINTS ≤ points.length then some points
    else
      let d := stream i
      if d.u < dens d.r d.theta d.phi / max_prob then
        sampleLoop dens stream fuel (i + 1) (points ++ [toCartesian d])
      else
        sampleLoop dens stream fuel (i + 1) points

/-- `generate_orbital_points` from `Multiple Orbitals.cpp` (lines 80-106):
rejection sampling of `probability_density(orbital, ·, ·, ·, time)`. -/
def generate_orbital_points (orbital : Orbital) (time : ℝ) (stream : ℕ → Draw)
    (fuel : ℕ) : Option (List (ℝ × ℝ × ℝ)) :=
  sampleLoop (fun r theta phi => probability_density orbital r theta phi time)
    stream fuel 0 []

/-- `generate_orbital_points` from `part_000` (lines 77-103): same loop over
that file's `probability_density(n, l, m, ·, ·, ·, time)`. -/
def Part000.generate_orbital_points (orbital : Orbital) (time : ℝ)
    (stream : ℕ → Draw) (fuel : ℕ) : Option (List (ℝ × ℝ × ℝ)) :=
  sampleLoop
    (fun r theta phi =>
      Part000.probability_density orbital.n orbital.l orbital.m r theta phi time)
    stream fuel 0 []

/-- Euclidean norm of a sampled Cartesian point. -/
def norm3 (p : ℝ × ℝ × ℝ) : ℝ :=
  Real.sqrt (p.1 ^ 2 + p.2.1 ^ 2 + p.2.2 ^ 2)

/-- The orbital catalogue built in `main` of `Multiple Orbitals.cpp`
(lines 132-137). -/
def orbitals : List Orbital :=
  [⟨1, 0, 0, 2, "1s", (1, 0, 0)⟩,
   ⟨2, 1, 1, 2, "2px", (0, 1, 0)⟩,
   ⟨2, 1, -1, 2, "2py", (0, 0.5, 1)⟩,
   ⟨2, 1, 0, 2, "2pz", (1, 1, 0)⟩]

/-- The mutable display state of `main` in `Multiple Orbitals.cpp`:
`current_orbital`, `points`, `last_generation_time`. -/
structure SchedState where
  current_orbital : ℕ
  points : List (ℝ × ℝ × ℝ)
  last_generation_time : ℝ

/-- Startup state: orbital index `0`, empty point buffer,
`last_generation_time = -100.0f` (lines 139-145). -/
def initState : SchedState := ⟨0, [], -100⟩

/-- The `KeyPressed` handler for `Num1..Num4` (lines 152-161): given the
derived index (non-negative by the key-range guard), update the current
orbital and reset `last_generation_time` to the `-100` sentinel when
`index < orbitals.size()`; otherwise do nothing. -/
def switchOrbital (index : ℕ) (s : SchedState) : SchedState :=
  if index < orbitals.length then
    { s with current_orbital := index, last_generation_time := -100 }
  else s

/-- One pass of the regeneration check (lines 167-171): if
`time - last_generation_time > 0.5f`, replace the points with a fresh
sample for the current orbital at `time` and record `time`; `gen`
abstracts the sampler call `generate_orbital_points(orbitals[i], time)`. -/
def tick (now : ℝ) (gen : ℕ → ℝ → List (ℝ × ℝ × ℝ)) (s : SchedState) :
    SchedState :=
  if now - s.last_generation_time > REGEN_INTERVAL then
    { s with points := gen s.current_orbital now, last_generation_time := now }
  else s

/-! ### Helper lemmas -/

lemma probability_density_eq (orbital : Orbital) (r theta phi t : ℝ) :
    probability_density orbital r theta phi t =
      (radial_function orbital.n r * real_spherical_harmonic orbital theta phi) ^ 2 *
        (1 + 0.1 * Real.sin (VIBRATION_FREQ * t)) := by
  unfold probability_density
  ring

lemma part000_probability_density_eq (n l m : ℤ) (r theta phi t : ℝ) :
    Part000.probability_density n l m r theta phi t =
      (radial_function n r * Part000.spherical_harmonic l m theta phi) ^ 2 *
        (1 + 0.1 * Real.sin (VIBRATION_FREQ * t)) := by
  unfold Part000.probability_density
  ring

lemma vibration_bounds (t : ℝ) :
    0.9 ≤ 1 + 0.1 * Real.sin (VIBRATION_FREQ * t) ∧
      1 + 0.1 * Real.sin (VIBRATION_FREQ * t) ≤ 1.1 := by
  have h1 := Real.neg_one_le_sin (VIBRATION_FREQ * t)
  have h2 := Real.sin_le_one (VIBRATION_FREQ * t)
  constructor <;> nlinarith

lemma density_nonneg_aux (orbital : Orbital) (r theta phi t : ℝ) :
    0 ≤ probability_density orbital r theta phi t := by
  rw [probability_density_eq]
  have h := (vibration_bounds t).1
  exact mul_nonneg (sq_nonneg _) (by linarith)

lemma part000_density_nonneg_aux (n l m : ℤ) (r theta phi t : ℝ) :
    0 ≤ Part000.probability_density n l m r theta phi t := by
  rw [part000_probability_density_eq]
  have h := (vibration_bounds t).1
  exact mul_nonneg (sq_nonneg _) (by linarith)

/-! ### Claim theorems -/

/-- C2: in both files, the density at `(r, theta, phi)` and time `t` is
`psi^2 * (1 + 0.1 * sin(VIBRATION_FREQ * t))` where `psi` is the radial
amplitude at `(n, r)` times the angular amplitude at `(l, m, theta, phi)`,
and the vibration frequency constant is `0.1`. -/
theorem probability_density_formula (orbital : Orbital) (r theta phi t : ℝ) :
    probability_density orbital r theta phi t =
      (radial_function orbital.n r * real_spherical_harmonic orbital theta phi) ^ 2 *
        (1 + 0.1 * Real.sin (VIBRATION_FREQ * t)) ∧
    Part000.probability_density orbital.n orbital.l orbital.m r theta phi t =
      (radial_function orbital.n r *
          Part000.spherical_harmonic orbital.l orbital.m theta phi) ^ 2 *
        (1 + 0.1 * Real.sin (VIBRATION_FREQ * t)) ∧
    VIBRATION_FREQ = 0.1 :=
  ⟨probability_density_eq orbital r theta phi t,
   part000_probability_density_eq orbital.n orbital.l orbital.m r theta phi t,
   rfl⟩

/-- C6: for every orbital (supported or not), every spherical coordinate
and every time, both files' densities are non-negative, and the vibration
factor `1 + 0.1 * sin(VIBRATION_FREQ * t)` is strictly positive. -/
theorem probability_density_nonneg (orbital : Orbital) (n l m : ℤ)
    (r theta phi t : ℝ) :
    0 ≤ probability_density orbital r theta phi t ∧
    0 ≤ Part000.probability_density n l m r theta phi t ∧
    0 < 1 + 0.1 * Real.sin (VIBRATION_FREQ * t) := by
  refine ⟨density_nonneg_aux orbital r theta phi t,
    part000_density_nonneg_aux n l m r theta phi t, ?_⟩
  have h := (vibration_bounds t).1
  linarith

/-- C5: absent a switch, a tick with `now - last_generation_time ≤ 0.5`
leaves the state (point set and timestamp) unchanged, reusing the
identical set; a tick with `now - last_generation_time > 0.5` replaces the
points with a fresh sample for the current orbital at `now` and sets
`last_generation_time = now`. -/
theorem tick_throttle (s : SchedState) (now : ℝ)
    (gen : ℕ → ℝ → List (ℝ × ℝ × ℝ)) :
    (now - s.last_generation_time ≤ REGEN_INTERVAL → tick now gen s = s) ∧
    (now - s.last_generation_time > REGEN_INTERVAL →
      tick now gen s = ⟨s.current_orbital, gen s.current_orbital now, now⟩) := by
  obtain ⟨c, p, lg⟩ := s
  constructor
  · intro h
    unfold tick
    split_ifs with hc
    · exact absurd hc (not_lt.mpr h)
    · rfl
  · intro h
    unfold tick
    split_ifs
    rfl

/-- Witness for C5 at concrete states: at startup (`last_generation_time =
-100`) a tick at `now = 0` regenerates; immediately afterwards a second
tick at `now = 0` reuses the state unchanged. -/
theorem tick_throttle_witness :
    tick 0 (fun _ _ => []) initState = ⟨0, [], 0⟩ ∧
    tick 0 (fun _ _ => []) ⟨0, [], 0⟩ = ⟨0, [], 0⟩ := by
  constructor
  · exact (tick_throttle initState 0 (fun _ _ => [])).2
      (by norm_num [initState, REGEN_INTERVAL])
  · exact (tick_throttle ⟨0, [], 0⟩ 0 (fun _ _ => [])).1
      (by norm_num [REGEN_INTERVAL])

/-- C4: switching to a valid orbital index resets `last_generation_time`
to the `-100` sentinel, so the next tick at any elapsed time `now ≥ 0`
regenerates the point set for the switched orbital regardless of how
recent the previous regeneration was. -/
theorem switch_forces_regeneration (s : SchedState) (index : ℕ)
    (hindex : index < orbitals.length) (now : ℝ) (hnow : 0 ≤ now)
    (gen : ℕ → ℝ → List (ℝ × ℝ × ℝ)) :
    (switchOrbital index s).last_generation_time = -100 ∧
    tick now gen (switchOrbital index s) = ⟨index, gen index now, now⟩ := by
  obtain ⟨c, p, lg⟩ := s
  have hsw : switchOrbital index ⟨c, p, lg⟩ = ⟨index, p, -100⟩ := by
    unfold switchOrbital
    rw [if_pos hindex]
  rw [hsw]
  refine ⟨rfl, ?_⟩
  unfold tick
  split_ifs with hc
  · rfl
  · exfalso
    rw [not_lt] at hc
    unfold REGEN_INTERVAL at hc
    norm_num at hc
    linarith

/-- Witness for C4: switching the startup state to orbital `2` resets the
timestamp, and the next tick at `now = 1` regenerates. -/
theorem switch_forces_regeneration_witness :
    (switchOrbital 2 initState).last_generation_time = -100 ∧
    tick 1 (fun _ _ => []) (switchOrbital 2 initState) = ⟨2, [], 1⟩ :=
  switch_forces_regeneration initState 2 (by norm_num [orbitals]) 1
    (by norm_num) (fun _ _ => [])

/-- C8: a select-orbital event whose index is at or beyond the catalogue
size leaves the whole state — in particular the current orbital index and
the last-generation timestamp — unchanged; a valid index updates the
current orbital. -/
theorem switch_out_of_range_ignored (s : SchedState) (index : ℕ) :
    (orbitals.length ≤ index →
      switchOrbital index s = s ∧
      (switchOrbital index s).current_orbital = s.current_orbital ∧
      (switchOrbital index s).last_generation_time = s.last_generation_time) ∧
    (index < orbitals.length →
      (switchOrbital index s).current_orbital = index) := by
  constructor
  · intro h
    have he : switchOrbital index s = s := by
      unfold switchOrbital
      rw [if_neg (not_lt.mpr h)]
    exact ⟨he, by rw [he], by rw [he]⟩
  · intro h
    unfold switchOrbital
    rw [if_pos h]

/-- Witness for C8: index `9` (out of range for the 4-orbital catalogue)
is ignored from the startup state, while index `1` is applied. -/
theorem switch_out_of_range_ignored_witness :
    switchOrbital 9 initState = initState ∧
    (switchOrbital 1 initState).current_orbital = 1 :=
  ⟨((switch_out_of_range_ignored initState 9).1 (by norm_num [orbitals])).1,
   (switch_out_of_range_ignored initState 1).2 (by norm_num [orbitals])⟩

lemma PI_pos : (0 : ℝ) < PI := by norm_num [PI]

lemma sin_half_PI_pos : 0 < Real.sin (PI / 2) := by
  apply Real.sin_pos_of_pos_of_lt_pi
  · norm_num [PI]
  · have h := Real.pi_gt_three
    have : PI / 2 < 3 := by norm_num [PI]
    linarith

/-- C3: the radial amplitude is zero for every `n` outside `{1, 2}` and
non-trivial on `{1, 2}`; both files' angular amplitudes are zero for every
`(l, m)` outside `{(0,0), (1,0), (1,1), (1,-1)}` and non-trivial on each
of those four cases. -/
theorem amplitudes_zero_outside_table :
    (∀ (n : ℤ) (r : ℝ), n ≠ 1 → n ≠ 2 → radial_function n r = 0) ∧
    (∀ (orbital : Orbital) (theta phi : ℝ),
      ¬(orbital.l = 0 ∧ orbital.m = 0) → ¬(orbital.l = 1 ∧ orbital.m = 0) →
      ¬(orbital.l = 1 ∧ orbital.m = 1) → ¬(orbital.l = 1 ∧ orbital.m = -1) →
      real_spherical_harmonic orbital theta phi = 0) ∧
    (∀ (l m : ℤ) (theta phi : ℝ),
      ¬(l = 0 ∧ m = 0) → ¬(l = 1 ∧ m = 0) →
      ¬(l = 1 ∧ m = 1) → ¬(l = 1 ∧ m = -1) →
      Part000.spherical_harmonic l m theta phi = 0) ∧
    radial_function 1 0 ≠ 0 ∧
    radial_function 2 0 ≠ 0 ∧
    real_spherical_harmonic ⟨1, 0, 0, 2, "1s", (1, 0, 0)⟩ 0 0 ≠ 0 ∧
    real_spherical_harmonic ⟨2, 1, 0, 2, "2pz", (1, 1, 0)⟩ 0 0 ≠ 0 ∧
    real_spherical_harmonic ⟨2, 1, 1, 2, "2px", (0, 1, 0)⟩ (PI / 2) 0 ≠ 0 ∧
    real_spherical_harmonic ⟨2, 1, -1, 2, "2py", (0, 0.5, 1)⟩ (PI / 2) (PI / 2) ≠ 0 := by
  have hsqPI : 0 < Real.sqrt (1 / PI) := Real.sqrt_pos.mpr (by norm_num [PI])
  have hsq4 : 0 < Real.sqrt (3 / (4 * PI)) := Real.sqrt_pos.mpr (by norm_num [PI])
  have hsin := sin_half_PI_pos
  refine ⟨?_, ?_, ?_, ?_, ?_, ?_, ?_, ?_, ?_⟩
  · intro n r h1 h2
    unfold radial_function
    rw [if_neg h1, if_neg h2]
  · intro orbital theta phi h1 h2 h3 h4
    unfold real_spherical_harmonic
    rw [if_neg h1, if_neg h2, if_neg h3, if_neg h4]
  · intro l m theta phi h1 h2 h3 h4
    unfold Part000.spherical_harmonic
    rw [if_neg h1, if_neg h2, if_neg h3, if_neg h4]
  · unfold radial_function
    norm_num [BOHR_RADIUS, Real.one_rpow, Real.exp_zero]
  · unfold radial_function
    norm_num [BOHR_RADIUS, Real.one_rpow, Real.exp_zero, Real.sqrt_ne_zero']
  · have h : real_spherical_harmonic ⟨1, 0, 0, 2, "1s", (1, 0, 0)⟩ 0 0 =
        0.5 * Real.sqrt (1 / PI) := by
      unfold real_spherical_harmonic
      norm_num
    rw [h]
    exact ne_of_gt (by nlinarith)
  · have h : real_spherical_harmonic ⟨2, 1, 0, 2, "2pz", (1, 1, 0)⟩ 0 0 =
        Real.sqrt (3 / (4 * PI)) := by
      unfold real_spherical_harmonic
      norm_num
    rw [h]
    exact ne_of_gt hsq4
  · have h : real_spherical_harmonic ⟨2, 1, 1, 2, "2px", (0, 1, 0)⟩ (PI / 2) 0 =
        -(Real.sqrt (3 / (4 * PI)) * Real.sin (PI / 2)) := by
      unfold real_spherical_harmonic
      norm_num
    rw [h]
    exact ne_of_lt (by nlinarith)
  · have h : real_spherical_harmonic ⟨2, 1, -1, 2, "2py", (0, 0.5, 1)⟩
        (PI / 2) (PI / 2) =
        -(Real.sqrt (3 / (4 * PI)) * (Real.sin (PI / 2) * Real.sin (PI / 2))) := by
      unfold real_spherical_harmonic
      norm_num
      ring
    rw [h]
    exact ne_of_lt (by nlinarith [mul_pos hsq4 (mul_pos hsin hsin)])

/-- Witness for C3 at concrete out-of-table inputs: `n = 3`,
`(l, m) = (2, 1)` and `(l, m) = (2, 0)` all yield zero amplitude. -/
theorem amplitudes_zero_outside_table_witness :
    radial_function 3 1 = 0 ∧
    real_spherical_harmonic ⟨3, 2, 1, 2, "3d", (1, 0, 0)⟩ 1 1 = 0 ∧
    Part000.spherical_harmonic 2 0 1 1 = 0 :=
  ⟨amplitudes_zero_outside_table.1 3 1 (by decide) (by decide),
   amplitudes_zero_outside_table.2.1 ⟨3, 2, 1, 2, "3d", (1, 0, 0)⟩ 1 1
     (by decide) (by decide) (by decide) (by decide),
   amplitudes_zero_outside_table.2.2.1 2 0 1 1
     (by decide) (by decide) (by decide) (by decide)⟩

lemma harmonicA_00 (theta phi : ℝ) :
    real_spherical_harmonic ⟨1, 0, 0, 2, "1s", (1, 0, 0)⟩ theta phi =
      0.5 * Real.sqrt (1 / PI) := by
  unfold real_spherical_harmonic
  norm_num

lemma harmonicA_10 (theta phi : ℝ) :
    real_spherical_harmonic ⟨2, 1, 0, 2, "2pz", (1, 1, 0)⟩ theta phi =
      Real.sqrt (3 / (4 * PI)) * Real.cos theta := by
  unfold real_spherical_harmonic
  norm_num

lemma harmonicA_11 (theta phi : ℝ) :
    real_spherical_harmonic ⟨2, 1, 1, 2, "2px", (0, 1, 0)⟩ theta phi =
      -Real.sqrt (3 / (4 * PI)) * Real.sin theta * Real.cos phi := by
  unfold real_spherical_harmonic
  norm_num

lemma harmonicA_1m1 (theta phi : ℝ) :
    real_spherical_harmonic ⟨2, 1, -1, 2, "2py", (0, 0.5, 1)⟩ theta phi =
      -Real.sqrt (3 / (4 * PI)) * Real.sin theta * Real.sin phi := by
  unfold real_spherical_harmonic
  norm_num

lemma harmonicB_00 (theta phi : ℝ) :
    Part000.spherical_harmonic 0 0 theta phi = 0.5 * Real.sqrt (1 / PI) := by
  unfold Part000.spherical_harmonic
  norm_num

lemma harmonicB_10 (theta phi : ℝ) :
    Part000.spherical_harmonic 1 0 theta phi =
      Real.sqrt (3 / (4 * PI)) * Real.cos theta := by
  unfold Part000.spherical_harmonic
  norm_num

lemma harmonicB_11 (theta phi : ℝ) :
    Part000.spherical_harmonic 1 1 theta phi =
      -Real.sqrt (3 / (8 * PI)) * Real.sin theta * Real.cos phi := by
  unfold Part000.spherical_harmonic
  norm_num

lemma harmonicB_1m1 (theta phi : ℝ) :
    Part000.spherical_harmonic 1 (-1) theta phi =
      Real.sqrt (3 / (8 * PI)) * Real.sin theta * Real.sin phi := by
  unfold Part000.spherical_harmonic
  norm_num

lemma sqrt_harmonic_coeff :
    Real.sqrt (3 / (4 * PI)) = Real.sqrt 2 * Real.sqrt (3 / (8 * PI)) := by
  rw [← Real.sqrt_mul (by norm_num : (0 : ℝ) ≤ 2)]
  congr 1
  ring

/-- C9 counterexample: at `(l, m) = (1, -1)` and `theta = phi = 1`, the
angular amplitude of `Multiple Orbitals.cpp` is strictly negative while
that of `part_000` is strictly positive, so the two files' angular
functions (and hence their densities) do not agree on all four supported
cases. -/
theorem harmonic_files_disagree :
    real_spherical_harmonic ⟨2, 1, -1, 2, "2py", (0, 0.5, 1)⟩ 1 1 ≠
      Part000.spherical_harmonic 1 (-1) 1 1 := by
  have hsin : 0 < Real.sin 1 :=
    Real.sin_pos_of_pos_of_lt_pi (by norm_num) (by linarith [Real.pi_gt_three])
  have h4 : 0 < Real.sqrt (3 / (4 * PI)) := Real.sqrt_pos.mpr (by norm_num [PI])
  have h8 : 0 < Real.sqrt (3 / (8 * PI)) := Real.sqrt_pos.mpr (by norm_num [PI])
  rw [harmonicA_1m1, harmonicB_1m1]
  have hlt : -Real.sqrt (3 / (4 * PI)) * Real.sin 1 * Real.sin 1 < 0 := by
    nlinarith [mul_pos h4 (mul_pos hsin hsin)]
  have hgt : 0 < Real.sqrt (3 / (8 * PI)) * Real.sin 1 * Real.sin 1 := by
    nlinarith [mul_pos h8 (mul_pos hsin hsin)]
  exact ne_of_lt (lt_trans hlt hgt)

/-- C9 amended: the two files' angular functions agree on the `(0,0)` and
`(1,0)` cases (hence the 1s and 2pz densities coincide), but on `(1,1)`
the first file is `√2` times the second and on `(1,-1)` it is `-√2` times
the second (hence the 2px and 2py densities of the first file are exactly
twice those of the second). -/
theorem harmonic_files_relation (theta phi : ℝ) :
    (real_spherical_harmonic ⟨1, 0, 0, 2, "1s", (1, 0, 0)⟩ theta phi =
      Part000.spherical_harmonic 0 0 theta phi) ∧
    (real_spherical_harmonic ⟨2, 1, 0, 2, "2pz", (1, 1, 0)⟩ theta phi =
      Part000.spherical_harmonic 1 0 theta phi) ∧
    (real_spherical_harmonic ⟨2, 1, 1, 2, "2px", (0, 1, 0)⟩ theta phi =
      Real.sqrt 2 * Part000.spherical_harmonic 1 1 theta phi) ∧
    (real_spherical_harmonic ⟨2, 1, -1, 2, "2py", (0, 0.5, 1)⟩ theta phi =
      -Real.sqrt 2 * Part000.spherical_harmonic 1 (-1) theta phi) ∧
    (∀ r t : ℝ,
      probability_density ⟨1, 0, 0, 2, "1s", (1, 0, 0)⟩ r theta phi t =
        Part000.probability_density 1 0 0 r theta phi t) ∧
    (∀ r t : ℝ,
      probability_density ⟨2, 1, 0, 2, "2pz", (1, 1, 0)⟩ r theta phi t =
        Part000.probability_density 2 1 0 r theta phi t) ∧
    (∀ r t : ℝ,
      probability_density ⟨2, 1, 1, 2, "2px", (0, 1, 0)⟩ r theta phi t =
        2 * Part000.probability_density 2 1 1 r theta phi t) ∧
    (∀ r t : ℝ,
      probability_density ⟨2, 1, -1, 2, "2py", (0, 0.5, 1)⟩ r theta phi t =
        2 * Part000.probability_density 2 1 (-1) r theta phi t) := by
  have hs2 : Real.sqrt 2 * Real.sqrt 2 = 2 := Real.mul_self_sqrt (by norm_num)
  refine ⟨?_, ?_, ?_, ?_, ?_, ?_, ?_, ?_⟩
  · rw [harmonicA_00, harmonicB_00]
  · rw [harmonicA_10, harmonicB_10]
  · rw [harmonicA_11, harmonicB_11, sqrt_harmonic_coeff]
    ring
  · rw [harmonicA_1m1, harmonicB_1m1, sqrt_harmonic_coeff]
    ring
  · intro r t
    simp only [probability_density_eq, part000_probability_density_eq,
      harmonicA_00, harmonicB_00]
  · intro r t
    simp only [probability_density_eq, part000_probability_density_eq,
      harmonicA_10, harmonicB_10]
  · intro r t
    simp only [probability_density_eq, part000_probability_density_eq,
      harmonicA_11, harmonicB_11, sqrt_harmonic_coeff]
    linear_combination (radial_function 2 r * Real.sqrt (3 / (8 * PI)) *
      Real.sin theta * Real.cos phi) ^ 2 *
      (1 + 0.1 * Real.sin (VIBRATION_FREQ * t)) * hs2
  · intro r t
    simp only [probability_density_eq, part000_probability_density_eq,
      harmonicA_1m1, harmonicB_1m1, sqrt_harmonic_coeff]
    linear_combination (radial_function 2 r * Real.sqrt (3 / (8 * PI)) *
      Real.sin theta * Real.sin phi) ^ 2 *
      (1 + 0.1 * Real.sin (VIBRATION_FREQ * t)) * hs2

lemma sampleLoop_some_length (dens : ℝ → ℝ → ℝ → ℝ) (stream : ℕ → Draw) :
    ∀ (fuel i : ℕ) (points res : List (ℝ × ℝ × ℝ)),
      points.length ≤ NUM_POINTS →
      sampleLoop dens stream fuel i points = some res →
      res.length = NUM_POINTS := by
  intro fuel
  induction fuel with
  | zero =>
    intro i points res hle h
    simp only [sampleLoop] at h
    split_ifs at h with hc
    cases h
    omega
  | succ f ih =>
    intro i points res hle h
    simp only [sampleLoop] at h
    split_ifs at h with hc hacc
    · cases h
      omega
    · exact ih (i + 1) (points ++ [toCartesian (stream i)]) res
        (by simp; omega) h
    · exact ih (i + 1) points res hle h

lemma sampleLoop_const_accept (dens : ℝ → ℝ → ℝ → ℝ) (d : Draw)
    (hacc : d.u < dens d.r d.theta d.phi / max_prob) :
    ∀ (fuel i : ℕ) (points : List (ℝ × ℝ × ℝ)),
      points.length + fuel = NUM_POINTS →
      sampleLoop dens (fun _ => d) fuel i points =
        some (points ++ List.replicate fuel (toCartesian d)) := by
  intro fuel
  induction fuel with
  | zero =>
    intro i points h
    simp only [sampleLoop]
    rw [if_pos (by omega)]
    simp
  | succ f ih =>
    intro i points h
    simp only [sampleLoop]
    rw [if_neg (by omega), if_pos hacc,
      ih (i + 1) (points ++ [toCartesian d]) (by simp; omega)]
    simp [List.replicate_succ]

lemma sampleLoop_never_accept (dens : ℝ → ℝ → ℝ → ℝ) (stream : ℕ → Draw)
    (hrej : ∀ i, ¬ (stream i).u <
      dens (stream i).r (stream i).theta (stream i).phi / max_prob) :
    ∀ (fuel i : ℕ) (points : List (ℝ × ℝ × ℝ)),
      points.length < NUM_POINTS →
      sampleLoop dens stream fuel i points = none := by
  intro fuel
  induction fuel with
  | zero =>
    intro i points h
    simp only [sampleLoop]
    rw [if_neg (by omega)]
  | succ f ih =>
    intro i points h
    simp only [sampleLoop]
    rw [if_neg (by omega), if_neg (hrej i)]
    exact ih (i + 1) points h

lemma norm3_toCartesian (d : Draw) : norm3 (toCartesian d) = |d.r| := by
  have h1 : Real.sin d.phi ^ 2 + Real.cos d.phi ^ 2 = 1 :=
    Real.sin_sq_add_cos_sq _
  have h2 : Real.sin d.theta ^ 2 + Real.cos d.theta ^ 2 = 1 :=
    Real.sin_sq_add_cos_sq _
  have key : (d.r * Real.sin d.theta * Real.cos d.phi) ^ 2 +
      (d.r * Real.sin d.theta * Real.sin d.phi) ^ 2 +
      (d.r * Real.cos d.theta) ^ 2 = d.r ^ 2 := by
    linear_combination (d.r ^ 2 * Real.sin d.theta ^ 2) * h1 + d.r ^ 2 * h2
  unfold norm3 toCartesian
  rw [key]
  exact Real.sqrt_sq_eq_abs _

lemma sampleLoop_mem_ball (rmax : ℝ) (dens : ℝ → ℝ → ℝ → ℝ)
    (stream : ℕ → Draw) (hstream : ∀ i, validDraw rmax (stream i)) :
    ∀ (fuel i : ℕ) (points res : List (ℝ × ℝ × ℝ)),
      (∀ p ∈ points, norm3 p ≤ rmax) →
      sampleLoop dens stream fuel i points = some res →
      ∀ p ∈ res, norm3 p ≤ rmax := by
  have hnew : ∀ i, norm3 (toCartesian (stream i)) ≤ rmax := by
    intro i
    rw [norm3_toCartesian]
    obtain ⟨⟨hr0, hr1, _⟩, _⟩ := hstream i
    rw [abs_of_nonneg hr0]
    exact hr1
  intro fuel
  induction fuel with
  | zero =>
    intro i points res hinv h
    simp only [sampleLoop] at h
    split_ifs at h with hc
    cases h
    exact hinv
  | succ f ih =>
    intro i points res hinv h
    simp only [sampleLoop] at h
    split_ifs at h with hc hacc
    · cases h
      exact hinv
    · refine ih (i + 1) (points ++ [toCartesian (stream i)]) res ?_ h
      intro p hp
      rcases List.mem_append.mp hp with hp | hp
      · exact hinv p hp
      · rw [List.mem_singleton.mp hp]
        exact hnew i
    · exact ih (i + 1) points res hinv h

lemma density_1s_origin_pos :
    0 < probability_density ⟨1, 0, 0, 2, "1s", (1, 0, 0)⟩ 0 0 0 0 := by
  rw [probability_density_eq]
  have hR : radial_function 1 0 = 2 := by
    unfold radial_function
    norm_num [BOHR_RADIUS, Real.one_rpow, Real.exp_zero]
  have hY := harmonicA_00 0 0
  have hs : 0 < Real.sqrt (1 / PI) := Real.sqrt_pos.mpr (by norm_num [PI])
  have hv := (vibration_bounds 0).1
  show 0 < (radial_function 1 0 *
      real_spherical_harmonic ⟨1, 0, 0, 2, "1s", (1, 0, 0)⟩ 0 0) ^ 2 *
    (1 + 0.1 * Real.sin (VIBRATION_FREQ * 0))
  rw [hR, hY]
  have h1 : (0 : ℝ) < 2 * (0.5 * Real.sqrt (1 / PI)) := by nlinarith
  exact mul_pos (pow_pos h1 2) (by nlinarith)

/-- C1: for every orbital and time, (a) whenever the acceptance loop of
`generate_orbital_points` returns, it returns exactly `NUM_POINTS` points;
(b) if the density is non-zero somewhere on the sampling domain, there are
draw streams (within the distributions' ranges) on which the loop
terminates with exactly `NUM_POINTS` points; (c) if the density is
identically zero on the sampling domain, the loop accepts nothing and
never terminates, on every valid draw stream and for every number of
iterations. -/
theorem generate_orbital_points_termination (orbital : Orbital) (t : ℝ) :
    (∀ (stream : ℕ → Draw) (fuel : ℕ) (res : List (ℝ × ℝ × ℝ)),
      generate_orbital_points orbital t stream fuel = some res →
      res.length = NUM_POINTS) ∧
    ((∃ r theta phi : ℝ, inDomain (8 * BOHR_RADIUS) r theta phi ∧
        probability_density orbital r theta phi t ≠ 0) →
      ∃ stream : ℕ → Draw, (∀ i, validDraw (8 * BOHR_RADIUS) (stream i)) ∧
        ∃ res, generate_orbital_points orbital t stream NUM_POINTS = some res ∧
          res.length = NUM_POINTS) ∧
    ((∀ r theta phi : ℝ, inDomain (8 * BOHR_RADIUS) r theta phi →
        probability_density orbital r theta phi t = 0) →
      ∀ stream : ℕ → Draw, (∀ i, validDraw (8 * BOHR_RADIUS) (stream i)) →
        ∀ fuel : ℕ, generate_orbital_points orbital t stream fuel = none) := by
  refine ⟨?_, ?_, ?_⟩
  · intro stream fuel res h
    exact sampleLoop_some_length _ stream fuel 0 [] res
      (by norm_num [NUM_POINTS]) h
  · rintro ⟨r, theta, phi, hdom, hne⟩
    refine ⟨fun _ => ⟨r, theta, phi, 0⟩, ?_, ?_⟩
    · intro i
      exact ⟨hdom, le_refl 0, by norm_num⟩
    · have hpos : 0 < probability_density orbital r theta phi t :=
        lt_of_le_of_ne (density_nonneg_aux orbital r theta phi t) (Ne.symm hne)
      have hacc : (Draw.mk r theta phi 0).u <
          probability_density orbital (Draw.mk r theta phi 0).r
            (Draw.mk r theta phi 0).theta (Draw.mk r theta phi 0).phi t /
            max_prob := by
        show (0 : ℝ) < probability_density orbital r theta phi t / max_prob
        rw [max_prob, div_one]
        exact hpos
      refine ⟨List.replicate NUM_POINTS (toCartesian ⟨r, theta, phi, 0⟩), ?_, ?_⟩
      · unfold generate_orbital_points
        rw [sampleLoop_const_accept _ _ hacc NUM_POINTS 0 [] (by simp)]
        simp
      · simp
  · intro hzero stream hstream fuel
    unfold generate_orbital_points
    apply sampleLoop_never_accept
    · intro i
      rw [hzero (stream i).r (stream i).theta (stream i).phi (hstream i).1,
        max_prob, zero_div]
      exact not_lt.mpr (hstream i).2.1
    · norm_num [NUM_POINTS]

/-- Witness for C1: for the supported 1s orbital at `t = 0` there is a
valid draw stream on which the generator returns exactly `NUM_POINTS`
points, while an unsupported `n = 3` orbital (density identically zero)
yields no points after e.g. 12 iterations on a concrete valid stream. -/
theorem generate_orbital_points_termination_witness :
    (∃ stream : ℕ → Draw, (∀ i, validDraw (8 * BOHR_RADIUS) (stream i)) ∧
      ∃ res, generate_orbital_points ⟨1, 0, 0, 2, "1s", (1, 0, 0)⟩ 0 stream
          NUM_POINTS = some res ∧ res.length = NUM_POINTS) ∧
    generate_orbital_points ⟨3, 0, 0, 2, "3s", (1, 0, 0)⟩ 0
      (fun _ => ⟨1, 1, 1, 1⟩) 12 = none := by
  constructor
  · refine (generate_orbital_points_termination
      ⟨1, 0, 0, 2, "1s", (1, 0, 0)⟩ 0).2.1 ⟨0, 0, 0, ?_, ?_⟩
    · refine ⟨le_refl 0, by norm_num [BOHR_RADIUS], le_refl 0, ?_, le_refl 0, ?_⟩
      · norm_num [PI]
      · norm_num [PI]
    · exact ne_of_gt density_1s_origin_pos
  · refine (generate_orbital_points_termination
      ⟨3, 0, 0, 2, "3s", (1, 0, 0)⟩ 0).2.2 ?_ _ ?_ 12
    · intro r theta phi _
      have h3 : radial_function 3 r = 0 := by
        unfold radial_function
        norm_num
      rw [probability_density_eq]
      show (radial_function 3 r * _) ^ 2 * _ = 0
      rw [h3, zero_mul]
      ring
    · intro i
      refine ⟨⟨by norm_num, by norm_num [BOHR_RADIUS], by norm_num, ?_,
        by norm_num, ?_⟩, by norm_num, by norm_num⟩
      · norm_num [PI]
      · norm_num [PI]

/-- C7: every point of a set returned by either file's
`generate_orbital_points` (on a stream within that file's distribution
ranges: radial upper bound `8 * BOHR_RADIUS` resp. `5 * BOHR_RADIUS`) has
Euclidean norm at most that radial upper bound, because each accepted
point is the spherical-to-Cartesian conversion of a draw with
`r ∈ [0, R_max]`. -/
theorem generate_points_in_ball :
    (∀ (orbital : Orbital) (t : ℝ) (stream : ℕ → Draw),
      (∀ i, validDraw (8 * BOHR_RADIUS) (stream i)) →
      ∀ (fuel : ℕ) (res : List (ℝ × ℝ × ℝ)),
        generate_orbital_points orbital t stream fuel = some res →
        ∀ p ∈ res, norm3 p ≤ 8 * BOHR_RADIUS) ∧
    (∀ (orbital : Orbital) (t : ℝ) (stream : ℕ → Draw),
      (∀ i, validDraw (5 * BOHR_RADIUS) (stream i)) →
      ∀ (fuel : ℕ) (res : List (ℝ × ℝ × ℝ)),
        Part000.generate_orbital_points orbital t stream fuel = some res →
        ∀ p ∈ res, norm3 p ≤ 5 * BOHR_RADIUS) := by
  constructor
  · intro orbital t stream hstream fuel res hres
    exact sampleLoop_mem_ball _ _ stream hstream fuel 0 [] res
      (by intro p hp; cases hp) hres
  · intro orbital t stream hstream fuel res hres
    exact sampleLoop_mem_ball _ _ stream hstream fuel 0 [] res
      (by intro p hp; cases hp) hres

/-- Witness for C7: a concrete terminating run (1s orbital, `t = 0`,
constant all-accepting stream at the origin) returns `NUM_POINTS` copies
of the origin, all within the sampling ball. -/
theorem generate_points_in_ball_witness :
    ∀ p ∈ List.replicate NUM_POINTS
        ((0 : ℝ) * Real.sin 0 * Real.cos 0, (0 : ℝ) * Real.sin 0 * Real.sin 0,
          (0 : ℝ) * Real.cos 0),
      norm3 p ≤ 8 * BOHR_RADIUS := by
  have hacc : (Draw.mk 0 0 0 0).u <
      probability_density ⟨1, 0, 0, 2, "1s", (1, 0, 0)⟩ (Draw.mk 0 0 0 0).r
        (Draw.mk 0 0 0 0).theta (Draw.mk 0 0 0 0).phi 0 / max_prob := by
    show (0 : ℝ) < probability_density ⟨1, 0, 0, 2, "1s", (1, 0, 0)⟩ 0 0 0 0 /
      max_prob
    rw [max_prob, div_one]
    exact density_1s_origin_pos
  have hvalid : ∀ i : ℕ, validDraw (8 * BOHR_RADIUS)
      ((fun _ : ℕ => Draw.mk 0 0 0 0) i) := by
    intro i
    refine ⟨⟨le_refl 0, by norm_num [BOHR_RADIUS], le_refl 0, ?_, le_refl 0,
      ?_⟩, le_refl 0, by norm_num⟩
    · norm_num [PI]
    · norm_num [PI]
  have hgen : generate_orbital_points ⟨1, 0, 0, 2, "1s", (1, 0, 0)⟩ 0
      (fun _ => Draw.mk 0 0 0 0) NUM_POINTS =
      some (List.replicate NUM_POINTS
        ((0 : ℝ) * Real.sin 0 * Real.cos 0, (0 : ℝ) * Real.sin 0 * Real.sin 0,
          (0 : ℝ) * Real.cos 0)) := by
    unfold generate_orbital_points
    rw [sampleLoop_const_accept
      (fun r theta phi =>
        probability_density ⟨1, 0, 0, 2, "1s", (1, 0, 0)⟩ r theta phi 0)
      (Draw.mk 0 0 0 0) hacc NUM_POINTS 0 [] (by simp)]
    simp [toCartesian]
  exact generate_points_in_ball.1 ⟨1, 0, 0, 2, "1s", (1, 0, 0)⟩ 0
    (fun _ => Draw.mk 0 0 0 0) hvalid NUM_POINTS _ hgen

lemma radial_one_eq (r : ℝ) : radial_function 1 r = 2 * Real.exp (-r) := by
  unfold radial_function
  norm_num [BOHR_RADIUS, Real.one_rpow]

lemma radial_two_eq (r : ℝ) : radial_function 2 r =
    1 / (2 * Real.sqrt 2) * (1 - r / 2) * Real.exp (-r / 2) := by
  unfold radial_function
  norm_num [BOHR_RADIUS, Real.one_rpow]

lemma radial_two_sq_le (r : ℝ) (hr0 : 0 ≤ r) (hr8 : r ≤ 8) :
    radial_function 2 r ^ 2 ≤ 9 / 8 := by
  rw [radial_two_eq]
  have hs : Real.sqrt 2 ^ 2 = 2 := Real.sq_sqrt (by norm_num)
  have hs0 : 0 < Real.sqrt 2 := Real.sqrt_pos.mpr (by norm_num)
  have he : Real.exp (-r / 2) ≤ 1 := by
    rw [Real.exp_le_one_iff]
    linarith
  have he0 : 0 < Real.exp (-r / 2) := Real.exp_pos _
  have he2 : Real.exp (-r / 2) ^ 2 ≤ 1 := by nlinarith
  have hq : (1 - r / 2) ^ 2 ≤ 9 := by nlinarith
  have hcoef : (1 / (2 * Real.sqrt 2)) ^ 2 = 1 / 8 := by
    rw [div_pow, mul_pow, hs]
    norm_num
  have expand : (1 / (2 * Real.sqrt 2) * (1 - r / 2) * Real.exp (-r / 2)) ^ 2 =
      (1 / (2 * Real.sqrt 2)) ^ 2 * ((1 - r / 2) ^ 2 * Real.exp (-r / 2) ^ 2) := by
    ring
  rw [expand, hcoef]
  have hprod : (1 - r / 2) ^ 2 * Real.exp (-r / 2) ^ 2 ≤ 9 :=
    le_trans (mul_le_mul (le_refl _) he2 (sq_nonneg _) (sq_nonneg _))
      (by nlinarith)
  linarith

lemma harmonic_sq_le_quarter (orbital : Orbital) (hl : orbital.l = 1)
    (theta phi : ℝ) :
    real_spherical_harmonic orbital theta phi ^ 2 ≤ 1 / 4 := by
  have hsq : Real.sqrt (3 / (4 * PI)) ^ 2 = 3 / (4 * PI) :=
    Real.sq_sqrt (by norm_num [PI])
  have hbound : (3 : ℝ) / (4 * PI) ≤ 1 / 4 := by norm_num [PI]
  have hbound0 : (0 : ℝ) ≤ 3 / (4 * PI) := by norm_num [PI]
  unfold real_spherical_harmonic
  split_ifs with h1 h2 h3 h4
  · rw [hl] at h1
    norm_num at h1
  · have hc := Real.cos_sq_le_one theta
    have expand : (Real.sqrt (3 / (4 * PI)) * Real.cos theta) ^ 2 =
        Real.sqrt (3 / (4 * PI)) ^ 2 * Real.cos theta ^ 2 := by ring
    rw [expand, hsq]
    nlinarith [sq_nonneg (Real.cos theta)]
  · have hst := Real.sin_sq_le_one theta
    have hcp := Real.cos_sq_le_one phi
    have expand : (-Real.sqrt (3 / (4 * PI)) * Real.sin theta * Real.cos phi) ^ 2 =
        Real.sqrt (3 / (4 * PI)) ^ 2 * (Real.sin theta ^ 2 * Real.cos phi ^ 2) := by
      ring
    rw [expand, hsq]
    nlinarith [sq_nonneg (Real.sin theta), sq_nonneg (Real.cos phi),
      sq_nonneg (Real.sin theta * Real.cos phi)]
  · have hst := Real.sin_sq_le_one theta
    have hsp := Real.sin_sq_le_one phi
    have expand : (-Real.sqrt (3 / (4 * PI)) * Real.sin theta * Real.sin phi) ^ 2 =
        Real.sqrt (3 / (4 * PI)) ^ 2 * (Real.sin theta ^ 2 * Real.sin phi ^ 2) := by
      ring
    rw [expand, hsq]
    nlinarith [sq_nonneg (Real.sin theta), sq_nonneg (Real.sin phi),
      sq_nonneg (Real.sin theta * Real.sin phi)]
  · norm_num

lemma density_1s_le (r theta phi t : ℝ) (hr0 : 0 ≤ r) :
    probability_density ⟨1, 0, 0, 2, "1s", (1, 0, 0)⟩ r theta phi t ≤ 0.4 := by
  rw [probability_density_eq]
  show (radial_function 1 r *
      real_spherical_harmonic ⟨1, 0, 0, 2, "1s", (1, 0, 0)⟩ theta phi) ^ 2 *
    (1 + 0.1 * Real.sin (VIBRATION_FREQ * t)) ≤ 0.4
  rw [radial_one_eq, harmonicA_00]
  have hsq : Real.sqrt (1 / PI) ^ 2 = 1 / PI := Real.sq_sqrt (by norm_num [PI])
  have hPI : (1 : ℝ) / PI ≤ 1 / 3 := by norm_num [PI]
  have he : Real.exp (-r) ≤ 1 := by
    rw [Real.exp_le_one_iff]
    linarith
  have he0 : 0 < Real.exp (-r) := Real.exp_pos _
  have he2 : Real.exp (-r) ^ 2 ≤ 1 := by nlinarith
  have hvib := vibration_bounds t
  have expand : (2 * Real.exp (-r) * (0.5 * Real.sqrt (1 / PI))) ^ 2 =
      Real.exp (-r) ^ 2 * Real.sqrt (1 / PI) ^ 2 := by ring
  rw [expand, hsq]
  have hkey : Real.exp (-r) ^ 2 * (1 / PI) ≤ 1 / 3 := by nlinarith
  have hfin : Real.exp (-r) ^ 2 * (1 / PI) *
      (1 + 0.1 * Real.sin (VIBRATION_FREQ * t)) ≤ (1 / 3) * 1.1 :=
    mul_le_mul hkey hvib.2 (by linarith [hvib.1]) (by norm_num)
  linarith

lemma density_2p_le (orbital : Orbital) (hn : orbital.n = 2) (hl : orbital.l = 1)
    (r theta phi t : ℝ) (hr0 : 0 ≤ r) (hr8 : r ≤ 8) :
    probability_density orbital r theta phi t ≤ 0.4 := by
  rw [probability_density_eq, hn]
  have hR := radial_two_sq_le r hr0 hr8
  have hY := harmonic_sq_le_quarter orbital hl theta phi
  have hvib := vibration_bounds t
  have expand : (radial_function 2 r *
      real_spherical_harmonic orbital theta phi) ^ 2 =
      radial_function 2 r ^ 2 * real_spherical_harmonic orbital theta phi ^ 2 := by
    ring
  rw [expand]
  have h1 : radial_function 2 r ^ 2 *
      real_spherical_harmonic orbital theta phi ^ 2 ≤ 9 / 8 * (1 / 4) :=
    mul_le_mul hR hY (sq_nonneg _) (by norm_num)
  have hfin : radial_function 2 r ^ 2 *
      real_spherical_harmonic orbital theta phi ^ 2 *
      (1 + 0.1 * Real.sin (VIBRATION_FREQ * t)) ≤ 9 / 8 * (1 / 4) * 1.1 :=
    mul_le_mul h1 hvib.2 (by linarith [hvib.1]) (by norm_num)
  linarith

/-- C10: for every orbital of the startup catalogue, every spherical
coordinate of the sampling domain (`0 ≤ r ≤ 8 * BOHR_RADIUS`) and every
time, the density is strictly below the hard-coded rejection bound
`max_prob = 1.0`, so the acceptance ratio `density / max_prob` never
exceeds `1`. -/
theorem density_below_rejection_bound (orbital : Orbital)
    (horb : orbital ∈ orbitals) (r theta phi t : ℝ) (hr0 : 0 ≤ r)
    (hr8 : r ≤ 8 * BOHR_RADIUS) :
    probability_density orbital r theta phi t < max_prob ∧
    probability_density orbital r theta phi t / max_prob < 1 := by
  have hr8' : r ≤ 8 := by
    rw [BOHR_RADIUS] at hr8
    linarith
  have hle : probability_density orbital r theta phi t ≤ 0.4 := by
    have hmem : orbital = ⟨1, 0, 0, 2, "1s", (1, 0, 0)⟩ ∨
        orbital = ⟨2, 1, 1, 2, "2px", (0, 1, 0)⟩ ∨
        orbital = ⟨2, 1, -1, 2, "2py", (0, 0.5, 1)⟩ ∨
        orbital = ⟨2, 1, 0, 2, "2pz", (1, 1, 0)⟩ := by
      simpa [orbitals] using horb
    rcases hmem with h | h | h | h <;> subst h
    · exact density_1s_le r theta phi t hr0
    · exact density_2p_le _ rfl rfl r theta phi t hr0 hr8'
    · exact density_2p_le _ rfl rfl r theta phi t hr0 hr8'
    · exact density_2p_le _ rfl rfl r theta phi t hr0 hr8'
  rw [max_prob, div_one]
  constructor <;> linarith

/-- Witness for C10: the 1s catalogue orbital at the origin and `t = 0`. -/
theorem density_below_rejection_bound_witness :
    probability_density ⟨1, 0, 0, 2, "1s", (1, 0, 0)⟩ 0 0 0 0 < max_prob ∧
    probability_density ⟨1, 0, 0, 2, "1s", (1, 0, 0)⟩ 0 0 0 0 / max_prob < 1 :=
  density_below_rejection_bound ⟨1, 0, 0, 2, "1s", (1, 0, 0)⟩
    (by simp [orbitals]) 0 0 0 0 (le_refl 0) (by norm_num [BOHR_RADIUS])

end HydrogenViz

end
